import Mathlib

/-!
Verification of the reactive state layer of the fiftyone browser front end.

The development embeds, as executable Lean definitions:
* a model of JavaScript values (`JVal`) and the object operations the
  selectors use (property lookup, assignment, deletion, spread copy);
* the Recoil atoms touched by the filter selectors (`Store`), the
  `filters` / `filterStage` / `matchedTags` selectors from the selector
  module, together with an explicit event trace recording the order of
  `set` and `socket.send` effects;
* the `state_update` message handler of `Dataset.tsx` (`onMessage`);
* the light and dark palettes of the theme module.
-/

/-- A JavaScript value: `null` (also standing for `undefined` where the two
are interchangeable for the modelled code), booleans, numbers, strings,
arrays, and objects as insertion-ordered association lists of own
properties. -/
inductive JVal where
  | null : JVal
  | bool : Bool → JVal
  | num : Int → JVal
  | str : String → JVal
  | arr : List JVal → JVal
  | obj : List (String × JVal) → JVal

/-- Own-property lookup in an entry list: first binding wins. -/
def lookupEntry : List (String × JVal) → String → Option JVal
  | [], _ => none
  | (k', v) :: rest, k => if k' = k then some v else lookupEntry rest k

/-- Property assignment on an entry list: an existing key is updated in
place (JavaScript keeps the original insertion position); a new key is
appended. -/
def setEntry : List (String × JVal) → String → JVal → List (String × JVal)
  | [], k, v => [(k, v)]
  | (k', v') :: rest, k, v =>
    if k' = k then (k, v) :: rest else (k', v') :: setEntry rest k v

/-- The `delete o[k]` operation on an entry list. -/
def delEntry (l : List (String × JVal)) (k : String) : List (String × JVal) :=
  l.filter (fun e => e.1 != k)

/-- Property read `o[k]` as the code reads it: `some` for a present property, `none` for
`undefined` (also on non-objects, where property reads yield `undefined`). -/
def objGet : JVal → String → Option JVal
  | .obj entries, k => lookupEntry entries k
  | _, _ => none

/-- Property assignment `o[k] = v` on an object; on a non-object value the modelled selectors
never assign, so the value is returned unchanged. -/
def objSet : JVal → String → JVal → JVal
  | .obj entries, k, v => .obj (setEntry entries k v)
  | o, _, _ => o

/-- Deletion `delete o[k]` on an object; unchanged on non-objects. -/
def objDelete : JVal → String → JVal
  | .obj entries, k => .obj (delEntry entries k)
  | o, _ => o

/-- Key enumeration `Object.keys(o)` for objects; the selectors only apply it to objects,
so non-objects are modelled as having no keys. -/
def objKeys : JVal → List String
  | .obj entries => entries.map (fun e => e.1)
  | _ => []

/-- JavaScript truthiness: `null`/`undefined`, `false`, `0` and `""` are
falsy; every object and array is truthy. -/
def truthy : JVal → Bool
  | .null => false
  | .bool b => b
  | .num n => n != 0
  | .str s => s != ""
  | .arr _ => true
  | .obj _ => true

/-- The entry list produced by `Object.assign(\x7b\x7d, x)` / a spread
`\x7b...x\x7d`: a shallow copy of an object's own entries; spreading
`undefined`, `null` or a primitive yields an empty object. -/
def spreadEntries : Option JVal → List (String × JVal)
  | some (.obj entries) => entries
  | _ => []

/-- A JavaScript `Set<string>` is modelled as its insertion-ordered,
duplicate-free list of elements; `add` keeps the first occurrence. -/
def jsSetAdd (l : List String) (s : String) : List String :=
  if s ∈ l then l else l ++ [s]

/-- Construction `new Set(xs)` over the elements of a decoded array: collects the
string elements in order, deduplicating on first occurrence.  The
selectors only ever store arrays of strings under tag categories. -/
def jsSetOfList (vs : List JVal) : List String :=
  vs.foldl (fun acc v => match v with | .str s => jsSetAdd acc s | _ => acc) []

/-- Construction `new Set(v)` for a stored tag-category value: arrays yield their
string elements as a set; any other (never stored) value is modelled as
the empty set. -/
def jsSetOfVal : JVal → List String
  | .arr vs => jsSetOfList vs
  | _ => []

/-- The Recoil atoms touched by the filter selectors: `stateDescription`
(default `\x7b\x7d`), `selectedSamples` (default `new Set()`), and
`modalFilters` (default `\x7b\x7d`). -/
structure Store where
  stateDescription : JVal
  selectedSamples : List String
  modalFilters : JVal

/-- The store holding every atom's declared default value. -/
def initStore : Store :=
  { stateDescription := .obj [], selectedSamples := [], modalFilters := .obj [] }

/-- One effect of a selector write, in program order: a Recoil `set` of
one of the three atoms, or a `socket.send`. -/
inductive Event where
  | setSelectedSamples : List String → Event
  | socketSend : JVal → Event
  | setStateDescription : JVal → Event
  | setModalFilters : JVal → Event

/-- Applying one effect to the store.  A `socket.send` goes to the
backend and leaves the local store unchanged. -/
def applyEvent (s : Store) : Event → Store
  | .setSelectedSamples v => { s with selectedSamples := v }
  | .socketSend _ => s
  | .setStateDescription v => { s with stateDescription := v }
  | .setModalFilters v => { s with modalFilters := v }

/-- Applying a write's effect trace in order. -/
def runEvents (s : Store) (evs : List Event) : Store :=
  evs.foldl applyEvent s

/-- Modelled from the spec: `packageMessage` (from `src/utils/socket`,
which is not under the sources) packages an outbound message as a
`\x7btype, ...payload\x7d`-shaped object ("a send primitive accepting
`\x7btype: \x22filters_update\x22, filters\x7d`-shaped payloads"). -/
def packageMessage (t : String) (payload : List (String × JVal)) : JVal :=
  .obj (("type", .str t) :: payload)

/-- The `filters` selector's `get`: `get(atoms.stateDescription).filters`;
`none` models the property being `undefined`. -/
def filtersGet (s : Store) : Option JVal :=
  objGet s.stateDescription "filters"

/-- The value of `get(modal ? modalFilters : filters)`: the `modalFilters`
atom in the modal context, the `filters` selector's read otherwise.
`none` models `undefined` (the `filters` key absent from the state
description). -/
def filtersOf (modal : Bool) (s : Store) : Option JVal :=
  if modal then some s.modalFilters else filtersGet s

/-- The effect trace of the `filters` selector's `set`: builds
`state = \x7b...stateDescription, filters\x7d`, sets `state.selected = []`,
clears `selectedSamples`, sends a `filters_update` message, and finally
commits the new state description.  `none` models a Recoil
`DefaultValue` (reset), which the code replaces with `\x7b\x7d`. -/
def filtersSetEvents (s : Store) (fv : Option JVal) : List Event :=
  let f := fv.getD (.obj [])
  let state :=
    objSet (objSet (.obj (spreadEntries (some s.stateDescription))) "filters" f)
      "selected" (.arr [])
  [ .setSelectedSamples [],
    .socketSend (packageMessage "filters_update" [("filters", f)]),
    .setStateDescription state ]

/-- The `filters` selector's `set`, as the store transition it induces. -/
def filtersSet (s : Store) (fv : Option JVal) : Store :=
  runEvents s (filtersSetEvents s fv)

/-- The `filterStage` selector's `get`:
`get(modal ? modalFilters : filters)?.[path] ?? \x7b\x7d`. -/
def filterStageGet (path : String) (modal : Bool) (s : Store) : JVal :=
  ((filtersOf modal s).bind (fun o => objGet o path)).getD (.obj [])

/-- The effect trace of the `filterStage` selector's `set`: shallow-copies
the current filters object, deletes the path on a `null` filter or
replaces it otherwise, and writes the copy back through the owning atom —
`modalFilters` directly in the modal context, the `filters` selector (and
hence its full effect trace) otherwise. -/
def filterStageSetEvents (path : String) (modal : Bool) (s : Store)
    (filter : Option JVal) : List Event :=
  let newFilters :=
    match filter with
    | none => JVal.obj (delEntry (spreadEntries (filtersOf modal s)) path)
    | some v => JVal.obj (setEntry (spreadEntries (filtersOf modal s)) path v)
  if modal then [.setModalFilters newFilters]
  else filtersSetEvents s (some newFilters)

/-- The `filterStage` selector's `set`, as the store transition it
induces.  `none` models the `filter === null` deletion case. -/
def filterStageSet (path : String) (modal : Bool) (s : Store)
    (filter : Option JVal) : Store :=
  runEvents s (filterStageSetEvents path modal s filter)

/-- The `matchedTags` selector's `get`:
`const tags = get(modal ? modalFilters : filters).tags` followed by
`tags && tags[key] ? new Set(tags[key]) : new Set()`.  The property access
has no optional chaining, so on an `undefined` (non-modal `filters` key
absent) or `null` consulted value the read throws a `TypeError`, modelled
as `none`; every other case returns a set. -/
def matchedTagsGet (key : String) (modal : Bool) (s : Store) :
    Option (List String) :=
  match filtersOf modal s with
  | none => none
  | some .null => none
  | some o =>
    let tags := (objGet o "tags").getD .null
    let entry := (objGet tags key).getD .null
    some (if truthy tags && truthy entry then jsSetOfVal entry else [])

/-- The new `tags` entries a `matchedTags` write builds, as a function of
the written set and the current `tags` property value `tagsOrig`:
`tags = \x7b...(stages.tags || \x7b\x7d)\x7d`, then
`Array.from(value)` is stored under the category for a non-empty set, and
the category is deleted for an empty (or non-`Set`) value when
`stages.tags && key in stages.tags`.  `key in` is modelled as an
own-property check; on the never-stored case of a truthy non-object
`tags` value the model treats the check as false. -/
def matchedTagsNewTags (key : String) (value : List String)
    (tagsOrig : JVal) : List (String × JVal) :=
  let tags0 := if truthy tagsOrig then spreadEntries (some tagsOrig) else []
  if value.length != 0 then setEntry tags0 key (.arr (value.map .str))
  else if truthy tagsOrig && (objGet tagsOrig key).isSome then
    delEntry tags0 key
  else tags0

/-- The filters object a `matchedTags` write commits, as a function of the
shallow copy `stages` of the current filters object: the rebuilt `tags`
sub-object is reattached (`stages.tags = tags`) and the `tags` key is
dropped entirely when no categories remain
(`Object.keys(stages.tags).length === 0`). -/
def matchedTagsStages (key : String) (value : List String)
    (stages : List (String × JVal)) : List (String × JVal) :=
  let tags1 := matchedTagsNewTags key value ((lookupEntry stages "tags").getD .null)
  let stages1 := setEntry stages "tags" (.obj tags1)
  if tags1.isEmpty then delEntry stages1 "tags" else stages1

/-- The effect trace of the `matchedTags` selector's `set`: shallow-copies
the current filters object, rebuilds it via `matchedTagsStages`, and
writes it back through the owning atom (`modalFilters` directly when
modal, the `filters` selector — and hence its full effect trace —
otherwise). -/
def matchedTagsSetEvents (key : String) (modal : Bool) (s : Store)
    (value : List String) : List Event :=
  let stages2 := matchedTagsStages key value (spreadEntries (filtersOf modal s))
  if modal then [.setModalFilters (.obj stages2)]
  else filtersSetEvents s (some (.obj stages2))

/-- The `matchedTags` selector's `set`, as the store transition it
induces; `value` is the written `Set<string>`. -/
def matchedTagsSet (key : String) (modal : Bool) (s : Store)
    (value : List String) : Store :=
  runEvents s (matchedTagsSetEvents key modal s value)

/-- Snake-case to camel-case conversion of one key, character by
character: an underscore is dropped and uppercases the following
character. -/
def camelChars : List Char → Bool → List Char
  | [], _ => []
  | c :: rest, up =>
    if c = '_' then camelChars rest true
    else (if up then c.toUpper else c) :: camelChars rest false

/-- Modelled from the spec: the key conversion done by `toCamelCase` from
the utilities package (not under the sources) — "residual fields are
case-converted". -/
def camelKey (s : String) : String :=
  ⟨camelChars s.data false⟩

mutual

/-- Modelled from the spec: `toCamelCase` from the utilities package (not
under the sources) recursively converts object keys from snake_case to
camelCase ("residual fields are case-converted"). -/
def toCamelCase : JVal → JVal
  | .obj entries => .obj (toCamelCaseEntries entries)
  | .arr vs => .arr (toCamelCaseArr vs)
  | .null => .null
  | .bool b => .bool b
  | .num n => .num n
  | .str s => .str s

/-- Key conversion over an object's entries. -/
def toCamelCaseEntries : List (String × JVal) → List (String × JVal)
  | [] => []
  | (k, v) :: rest => (camelKey k, toCamelCase v) :: toCamelCaseEntries rest

/-- Key conversion over an array's elements. -/
def toCamelCaseArr : List JVal → List JVal
  | [] => []
  | v :: rest => toCamelCase v :: toCamelCaseArr rest

end

/-- The local component state produced by `setState`: the `colorscale`
and `config` fields pulled out of the decoded payload (possibly
`undefined`, modelled `none`) and the composite `state` description. -/
structure LocalState where
  colorscale : Option JVal
  config : Option JVal
  state : JVal

/-- The `state_update` branch of the `onmessage` handler, applied to the
decoded `JSON.parse(msg.data).state` value: destructures
`\x7bcolorscale, config, ...data\x7d`, then builds
`\x7b...toCamelCase(data), view: data.view\x7d` and returns the new local
state `\x7bcolorscale, config, state\x7d`. -/
def handleStateUpdate (st : JVal) : LocalState :=
  let data := objDelete (objDelete st "colorscale") "config"
  { colorscale := objGet st "colorscale",
    config := objGet st "config",
    state := objSet (toCamelCase data) "view" ((objGet data "view").getD .null) }

/-- A delivered server-push message: its `event` tag and the JSON-decoded
value of its `data` string. -/
structure ESMessage where
  event : String
  data : JVal

/-- The `onmessage` callback of `useEventSource`: a message arriving
after the abort signal fired is discarded before any dispatch; otherwise
a `state_update` event replaces the local state via `handleStateUpdate`,
and any other event falls through the `switch` leaving the state
untouched. -/
def onMessage (aborted : Bool) (msg : ESMessage) (s : Option LocalState) :
    Option LocalState :=
  if aborted then s
  else if msg.event = "state_update" then
    some (handleStateUpdate ((objGet msg.data "state").getD .null))
  else s

/-- Delivering a sequence of messages, each tagged with the state of the
abort signal at its delivery time. -/
def runMessages (s : Option LocalState) (msgs : List (Bool × ESMessage)) :
    Option LocalState :=
  msgs.foldl (fun st m => onMessage m.1 m.2 st) s

/-- The palette of the `light` color scheme from the theme module, with
its token keys and literal values. -/
def lightPalette : JVal :=
  .obj
    [ ("background", .obj
        [ ("body", .str "hsl(200, 0%, 85%)"),
          ("level1", .str "hsl(200, 0%, 90%)"),
          ("level2", .str "hsl(200, 0%, 98%)"),
          ("level3", .str "hsl(200, 0%, 95%)"),
          ("header", .str "hsl(200, 0%, 100%)"),
          ("sidebar", .str "hsl(200, 0%, 98%)"),
          ("tooltip", .str "hsl(200, 0%, 100%)"),
          ("input", .str "hsl(200, 0%, 98%)") ]),
      ("divider", .str "hsl(200, 0%, 80%)"),
      ("danger", .obj [("plainColor", .str "hsl(0, 87%, 47%)")]),
      ("grey", .obj [("400", .str "#fff")]),
      ("neutral", .obj
        [ ("softBg", .str "hsl(200, 0%, 95%)"),
          ("softBorder", .str "hsl(200, 0%, 75%)"),
          ("plainColor", .str "hsl(213, 100%, 47%)") ]),
      ("primary", .obj
        [ ("main", .str "hsl(25, 100%, 51%)"),
          ("plainColor", .str "hsl(25, 100%, 51%)"),
          ("plainBorder", .str "hsl(200, 0%, 90%)"),
          ("softBg", .str "hsl(200, 0%, 85%, 0.7)"),
          ("softBorder", .str "hsl(200, 0%, 80%)") ]),
      ("focusVisible", .str "hsl(212, 97%, 57%, 0.3)"),
      ("text", .obj
        [ ("primary", .str "hsl(200, 0%, 0%)"),
          ("secondary", .str "hsl(200, 0%, 30%)"),
          ("tertiary", .str "hsl(200, 0%, 50%)"),
          ("buttonHighlight", .str "hsl(200, 0%, 100%)") ]) ]

/-- The palette of the `dark` color scheme from the theme module, with
its token keys and literal values. -/
def darkPalette : JVal :=
  .obj
    [ ("background", .obj
        [ ("body", .str "hsl(200, 0%, 15%)"),
          ("level1", .str "hsl(200, 0%, 20%)"),
          ("level2", .str "hsl(200, 0%, 10%)"),
          ("level3", .str "hsl(200, 0%, 5%)"),
          ("header", .str "hsl(200, 0%, 15%)"),
          ("sidebar", .str "hsl(200, 0%, 10%)"),
          ("tooltip", .str "hsl(200, 0%, 5%)") ]),
      ("divider", .str "hsl(200, 0%, 20%)"),
      ("danger", .obj [("plainColor", .str "hsl(0, 87%, 53%)")]),
      ("grey", .obj [("400", .str "#fff")]),
      ("neutral", .obj
        [ ("softBg", .str "hsl(200, 0%, 20%, 0.3)"),
          ("softBorder", .str "hsl(200, 0%, 25%)"),
          ("plainColor", .str "hsl(213, 100%, 53%)") ]),
      ("primary", .obj
        [ ("main", .str "hsl(25, 100%, 51%)"),
          ("plainColor", .str "hsl(25, 100%, 51%)"),
          ("plainBorder", .str "hsl(200, 0%, 5%)"),
          ("softBg", .str "hsl(200, 0%, 15%, 0.7)"),
          ("softBorder", .str "hsl(200, 0%, 20%)") ]),
      ("focusVisible", .str "hsl(212, 97%, 43%, 0.3)"),
      ("text", .obj
        [ ("primary", .str "hsl(200, 0%, 100%)"),
          ("secondary", .str "hsl(200, 0%, 70%)"),
          ("tertiary", .str "hsl(200, 0%, 50%)") ]) ]

/-- The semantic token paths a palette defines.  The theme's palettes are
at most two levels deep: a token is either a top-level scalar (path
`[k]`) or a scalar inside a section object (path `[section, k]`). -/
def tokenPaths (p : JVal) : List (List String) :=
  match p with
  | .obj entries =>
    entries.flatMap fun e =>
      match e.2 with
      | .obj inner => inner.map fun i => [e.1, i.1]
      | _ => [[e.1]]
  | _ => []


/-- The `matchedTags` read contract in the spec's words, for comparison
with the code's read: "the set of tag values recorded under a filter
category, or an empty set if absent", taken over a given filters
object. -/
def matchedTagsSpec (o : JVal) (key : String) : List String :=
  match objGet o "tags" with
  | some t =>
    match objGet t key with
    | some v => jsSetOfVal v
    | none => []
  | none => []

/-- A store with a non-empty sample selection and both filters objects at
their defaults. -/
def storeSel : Store :=
  { stateDescription := .obj [], selectedSamples := ["sample1"],
    modalFilters := .obj [] }

/-- A store whose non-modal filters hold a single tag category `k1`. -/
def storeTags : Store :=
  { stateDescription :=
      .obj [("filters", .obj [("tags", .obj [("k1", .arr [.str "t"])])])],
    selectedSamples := [], modalFilters := .obj [] }

/-- A concrete decoded `state_update` message. -/
def msgA : ESMessage :=
  { event := "state_update", data := .obj [("state", .obj [("view", .arr [])])] }

/-- A second concrete decoded `state_update` message. -/
def msgB : ESMessage :=
  { event := "state_update",
    data := .obj [("state", .obj [("view", .arr [.str "stage"])])] }

example : lookupEntry [("a", .num 1), ("b", .num 2)] "b" = some (.num 2) := rfl

example : setEntry [("a", .num 1), ("b", .num 2)] "a" (.num 7) =
    [("a", .num 7), ("b", .num 2)] := rfl

example : delEntry [("a", .num 1), ("b", .num 2)] "a" = [("b", .num 2)] := rfl

example : jsSetOfList [.str "x", .str "y", .str "x"] = ["x", "y"] := rfl

example :
    matchedTagsGet "k" false
      { initStore with
        stateDescription :=
          .obj [("filters",
            .obj [("tags", .obj [("k", .arr [.str "a", .str "b"])])])] } =
      some ["a", "b"] := rfl

example : matchedTagsGet "k" false initStore = none := rfl

example : matchedTagsGet "k" true initStore = some [] := rfl

example :
    (matchedTagsSet "k" true initStore ["a"]).modalFilters =
      .obj [("tags", .obj [("k", .arr [.str "a"])])] := rfl

example :
    (matchedTagsSet "k" true
      { initStore with
        modalFilters := .obj [("tags", .obj [("k", .arr [.str "a"])])] }
      []).modalFilters = .obj [] := rfl

example : camelKey "dataset_name" = "datasetName" := rfl

example : camelKey "view" = "view" := rfl

example :
    toCamelCase (.obj [("other_field", .str "Y"), ("a", .arr [.obj [("b_c", .num 1)]])]) =
      .obj [("otherField", .str "Y"), ("a", .arr [.obj [("bC", .num 1)]])] := rfl

example : ["grey", "400"] ∈ tokenPaths lightPalette := by decide

theorem lookup_setEntry_self (l : List (String × JVal)) (k : String) (v : JVal) :
    lookupEntry (setEntry l k v) k = some v := by
  induction l with
  | nil => simp [setEntry, lookupEntry]
  | cons e rest ih =>
    obtain ⟨k', v'⟩ := e
    by_cases h : k' = k
    · simp [setEntry, h, lookupEntry]
    · simp [setEntry, h, lookupEntry, ih]

theorem lookup_setEntry_ne (l : List (String × JVal)) (k k' : String) (v : JVal)
    (h : k' ≠ k) : lookupEntry (setEntry l k v) k' = lookupEntry l k' := by
  have h' : k ≠ k' := Ne.symm h
  induction l with
  | nil => simp [setEntry, lookupEntry, h']
  | cons e rest ih =>
    obtain ⟨k₀, v₀⟩ := e
    by_cases h₀ : k₀ = k
    · subst h₀
      simp [setEntry, lookupEntry, h']
    · simp [setEntry, h₀, lookupEntry, ih]

theorem lookup_delEntry_self (l : List (String × JVal)) (k : String) :
    lookupEntry (delEntry l k) k = none := by
  induction l with
  | nil => rfl
  | cons e rest ih =>
    obtain ⟨k₀, v₀⟩ := e
    by_cases h₀ : k₀ = k
    · simpa [delEntry, List.filter_cons, h₀] using ih
    · simpa [delEntry, List.filter_cons, h₀, lookupEntry, bne_iff_ne] using ih

theorem lookup_delEntry_ne (l : List (String × JVal)) (k k' : String)
    (h : k' ≠ k) : lookupEntry (delEntry l k) k' = lookupEntry l k' := by
  have h' : k ≠ k' := Ne.symm h
  induction l with
  | nil => rfl
  | cons e rest ih =>
    obtain ⟨k₀, v₀⟩ := e
    by_cases h₀ : k₀ = k
    · subst h₀
      simpa [delEntry, List.filter_cons, lookupEntry, h'] using ih
    · simp [delEntry, List.filter_cons, h₀, lookupEntry, bne_iff_ne] at ih ⊢
      rw [ih]

theorem lookup_spreadEntries (x : Option JVal) (k : String) :
    lookupEntry (spreadEntries x) k = x.bind (fun o => objGet o k) := by
  match x with
  | none => rfl
  | some .null => rfl
  | some (.bool _) => rfl
  | some (.num _) => rfl
  | some (.str _) => rfl
  | some (.arr _) => rfl
  | some (.obj _) => rfl

theorem delEntry_eq_self (l : List (String × JVal)) (k : String)
    (h : k ∉ l.map Prod.fst) : delEntry l k = l := by
  induction l with
  | nil => rfl
  | cons e rest ih =>
    obtain ⟨k₀, v₀⟩ := e
    simp only [List.map_cons, List.mem_cons, not_or] at h
    have h₀ : k₀ ≠ k := Ne.symm h.1
    have ih' := ih h.2
    simp only [delEntry] at ih' ⊢
    simp [List.filter_cons, bne_iff_ne, h₀, ih']

/-- A write's committed state description, unfolded to the entry
operations it performs. -/
theorem filtersSet_stateDescription (s : Store) (fv : Option JVal) :
    (filtersSet s fv).stateDescription =
      .obj (setEntry
        (setEntry (spreadEntries (some s.stateDescription)) "filters"
          (fv.getD (.obj [])))
        "selected" (.arr [])) := rfl

/-- After any `filters` write the `filters` read returns the written
object. -/
theorem filtersGet_filtersSet (s : Store) (fv : Option JVal) :
    filtersGet (filtersSet s fv) = some (fv.getD (.obj [])) := by
  have h : filtersGet (filtersSet s fv) =
      lookupEntry
        (setEntry
          (setEntry (spreadEntries (some s.stateDescription)) "filters"
            (fv.getD (.obj [])))
          "selected" (.arr [])) "filters" := rfl
  rw [h, lookup_setEntry_ne _ _ _ _ (by decide), lookup_setEntry_self]

/-- C1: a top-level `filters` write with a filters object `F` empties the
`selectedSamples` atom regardless of its prior value, commits a state
description whose `filters` is `F` and whose `selected` is `[]`, and its
effect trace sends the `filters_update` message carrying `F` strictly
before the `setStateDescription` commit. -/
theorem filters_write_clears_selection_and_sends (s : Store) (F : JVal) :
    (filtersSet s (some F)).selectedSamples = [] ∧
    objGet (filtersSet s (some F)).stateDescription "filters" = some F ∧
    objGet (filtersSet s (some F)).stateDescription "selected" =
      some (.arr []) ∧
    filtersSetEvents s (some F) =
      [ Event.setSelectedSamples [],
        Event.socketSend (packageMessage "filters_update" [("filters", F)]),
        Event.setStateDescription (filtersSet s (some F)).stateDescription ] := by
  refine ⟨rfl, ?_, ?_, rfl⟩
  · have h : objGet (filtersSet s (some F)).stateDescription "filters" =
        lookupEntry
          (setEntry
            (setEntry (spreadEntries (some s.stateDescription)) "filters" F)
            "selected" (.arr [])) "filters" := rfl
    rw [h, lookup_setEntry_ne _ _ _ _ (by decide), lookup_setEntry_self]
  · have h : objGet (filtersSet s (some F)).stateDescription "selected" =
        lookupEntry
          (setEntry
            (setEntry (spreadEntries (some s.stateDescription)) "filters" F)
            "selected" (.arr [])) "selected" := rfl
    rw [h, lookup_setEntry_self]

/-- C2 (amended): a filter mutation through the `filters` selector, or
through `filterStage` or `matchedTags` in the non-modal context, resets
the selected-samples set to empty; a modal-context `filterStage` or
`matchedTags` write leaves the selection unchanged. -/
theorem filter_mutation_selection_reset (s : Store) (F : JVal)
    (path key : String) (f : Option JVal) (v : List String) :
    (filtersSet s (some F)).selectedSamples = [] ∧
    (filterStageSet path false s f).selectedSamples = [] ∧
    (matchedTagsSet key false s v).selectedSamples = [] ∧
    (filterStageSet path true s f).selectedSamples = s.selectedSamples ∧
    (matchedTagsSet key true s v).selectedSamples = s.selectedSamples :=
  ⟨rfl, rfl, rfl, rfl, rfl⟩

/-- C2 (counterexample): a modal-context `filterStage` write is a filter
mutation, yet it leaves a previously non-empty selection intact, so not
every filter mutation resets the selection. -/
theorem modal_write_keeps_selection_cex :
    (filterStageSet "labels" true storeSel (some (.obj []))).selectedSamples ≠
      [] := by decide

/-- C10: a modal-context `filterStage` or `matchedTags` write emits
exactly one effect — a `set` of the `modalFilters` atom — so the state
description, the selection, and every other atom are untouched and no
socket message is sent. -/
theorem modal_write_frame (path key : String) (s : Store) (f : Option JVal)
    (v : List String) :
    (∃ a, filterStageSetEvents path true s f = [Event.setModalFilters a]) ∧
    (∃ b, matchedTagsSetEvents key true s v = [Event.setModalFilters b]) ∧
    (filterStageSet path true s f).stateDescription = s.stateDescription ∧
    (filterStageSet path true s f).selectedSamples = s.selectedSamples ∧
    (matchedTagsSet key true s v).stateDescription = s.stateDescription ∧
    (matchedTagsSet key true s v).selectedSamples = s.selectedSamples :=
  ⟨⟨_, rfl⟩, ⟨_, rfl⟩, rfl, rfl, rfl, rfl⟩

/-- C3: a `filterStage` write of `null` at a path removes that path's
entry from the resulting filters object regardless of prior content, and
a subsequent `filterStage` read of the path in the same context yields
the empty object. -/
theorem filterStage_null_write_removes_path (path : String) (modal : Bool)
    (s : Store) :
    (∃ o, filtersOf modal (filterStageSet path modal s none) = some o ∧
      objGet o path = none) ∧
    filterStageGet path modal (filterStageSet path modal s none) = .obj [] := by
  cases modal with
  | true =>
    constructor
    · exact ⟨_, rfl, lookup_delEntry_self _ _⟩
    · have h : filterStageGet path true (filterStageSet path true s none) =
          (lookupEntry (delEntry (spreadEntries (some s.modalFilters)) path)
            path).getD (.obj []) := rfl
      rw [h, lookup_delEntry_self]
      rfl
  | false =>
    have hf : filtersOf false (filterStageSet path false s none) =
        some (.obj (delEntry (spreadEntries (filtersOf false s)) path)) := by
      have h : filtersOf false (filterStageSet path false s none) =
          filtersGet (filtersSet s
            (some (.obj (delEntry (spreadEntries (filtersOf false s)) path)))) :=
        rfl
      rw [h, filtersGet_filtersSet]
      rfl
    constructor
    · exact ⟨_, hf, lookup_delEntry_self _ _⟩
    · unfold filterStageGet
      rw [hf]
      simp [objGet, lookup_delEntry_self]

/-- C4: a `filterStage` write of a non-null value `V` at a path makes the
`filterStage` read of that path return `V`, while the entry of every
other path is unchanged — both at the stored-object level and through
`filterStage` reads.  In this purely functional embedding the previously
stored filters object is necessarily unmutated; the code achieves the
same by operating on a shallow copy, which the embedding renders as
`spreadEntries`. -/
theorem filterStage_write_frame (path q : String) (modal : Bool) (s : Store)
    (V : JVal) (hq : q ≠ path) :
    filterStageGet path modal (filterStageSet path modal s (some V)) = V ∧
    (filtersOf modal (filterStageSet path modal s (some V))).bind
        (fun o => objGet o q) =
      (filtersOf modal s).bind (fun o => objGet o q) ∧
    filterStageGet q modal (filterStageSet path modal s (some V)) =
      filterStageGet q modal s := by
  have key : ∀ base : Option JVal,
      lookupEntry (setEntry (spreadEntries base) path V) q =
        base.bind (fun o => objGet o q) := by
    intro base
    rw [lookup_setEntry_ne _ _ _ _ hq, lookup_spreadEntries]
  cases modal with
  | true =>
    refine ⟨?_, ?_, ?_⟩
    · have h : filterStageGet path true (filterStageSet path true s (some V)) =
          (lookupEntry (setEntry (spreadEntries (some s.modalFilters)) path V)
            path).getD (.obj []) := rfl
      rw [h, lookup_setEntry_self]
      rfl
    · have h : (filtersOf true (filterStageSet path true s (some V))).bind
          (fun o => objGet o q) =
          lookupEntry (setEntry (spreadEntries (some s.modalFilters)) path V)
            q := rfl
      rw [h, key]
      rfl
    · have h : filterStageGet q true (filterStageSet path true s (some V)) =
          (lookupEntry (setEntry (spreadEntries (some s.modalFilters)) path V)
            q).getD (.obj []) := rfl
      rw [h, key]
      rfl
  | false =>
    have hf : filtersOf false (filterStageSet path false s (some V)) =
        some (.obj (setEntry (spreadEntries (filtersOf false s)) path V)) := by
      have h : filtersOf false (filterStageSet path false s (some V)) =
          filtersGet (filtersSet s
            (some (.obj (setEntry (spreadEntries (filtersOf false s)) path V)))) :=
        rfl
      rw [h, filtersGet_filtersSet]
      rfl
    refine ⟨?_, ?_, ?_⟩
    · unfold filterStageGet
      rw [hf]
      simp [objGet, lookup_setEntry_self]
    · rw [hf]
      show lookupEntry (setEntry (spreadEntries (filtersOf false s)) path V) q =
        (filtersOf false s).bind (fun o => objGet o q)
      rw [key]
    · unfold filterStageGet
      rw [hf]
      show (lookupEntry (setEntry (spreadEntries (filtersOf false s)) path V)
          q).getD (.obj []) =
        ((filtersOf false s).bind (fun o => objGet o q)).getD (.obj [])
      rw [key]

/-- C4 (witness): the write/frame property instantiated at a concrete
store with two paths. -/
theorem filterStage_write_frame_witness :
    ("other" : String) ≠ "labels" ∧
    (filterStageGet "labels" false
        (filterStageSet "labels" false storeTags (some (.obj [("x", .num 1)]))) =
        .obj [("x", .num 1)] ∧
      (filtersOf false
            (filterStageSet "labels" false storeTags
              (some (.obj [("x", .num 1)])))).bind (fun o => objGet o "other") =
        (filtersOf false storeTags).bind (fun o => objGet o "other") ∧
      filterStageGet "other" false
          (filterStageSet "labels" false storeTags
            (some (.obj [("x", .num 1)]))) =
        filterStageGet "other" false storeTags) :=
  ⟨by decide,
    filterStage_write_frame "labels" "other" false storeTags
      (.obj [("x", .num 1)]) (by decide)⟩

theorem delEntry_eq_nil_of_keys (es : List (String × JVal)) (key : String)
    (h : (es.map Prod.fst).filter (fun c => c != key) = []) :
    delEntry es key = [] := by
  induction es with
  | nil => rfl
  | cons e rest ih =>
    obtain ⟨k₀, v₀⟩ := e
    simp only [List.map_cons, List.filter_cons] at h
    by_cases h₀ : (k₀ != key) = true
    · rw [if_pos h₀] at h
      exact absurd h (List.cons_ne_nil _ _)
    · rw [if_neg h₀] at h
      simpa [delEntry, List.filter_cons, h₀] using ih h

theorem entries_nil_of_keys (es : List (String × JVal)) (key : String)
    (h : (es.map Prod.fst).filter (fun c => c != key) = [])
    (hk : lookupEntry es key = none) : es = [] := by
  cases es with
  | nil => rfl
  | cons e rest =>
    obtain ⟨k₀, v₀⟩ := e
    simp only [List.map_cons, List.filter_cons] at h
    by_cases h₀ : (k₀ != key) = true
    · rw [if_pos h₀] at h
      exact absurd h (List.cons_ne_nil _ _)
    · have hkk : k₀ = key := by simpa [bne_iff_ne] using h₀
      rw [lookupEntry, if_pos hkk] at hk
      simp at hk

theorem matchedTagsNewTags_empty_lookup (t : JVal) (key : String) :
    lookupEntry (matchedTagsNewTags key [] t) key = none := by
  cases t with
  | obj es =>
    cases hk : lookupEntry es key with
    | none => simp [matchedTagsNewTags, truthy, objGet, spreadEntries, hk]
    | some v =>
      simp [matchedTagsNewTags, truthy, objGet, spreadEntries, hk,
        lookup_delEntry_self]
  | null => rfl
  | bool b => cases b <;> rfl
  | num n =>
    simp [matchedTagsNewTags, truthy, objGet, spreadEntries, lookupEntry]
  | str v =>
    simp [matchedTagsNewTags, truthy, objGet, spreadEntries, lookupEntry]
  | arr vs => rfl

theorem matchedTagsNewTags_empty_last (t : JVal) (key : String)
    (h : (objKeys t).filter (fun c => c != key) = []) :
    matchedTagsNewTags key [] t = [] := by
  cases t with
  | obj es =>
    cases hk : lookupEntry es key with
    | none =>
      have hnil : es = [] :=
        entries_nil_of_keys es key (by simpa [objKeys] using h) hk
      subst hnil
      rfl
    | some v =>
      simp [matchedTagsNewTags, truthy, objGet, spreadEntries, hk,
        delEntry_eq_nil_of_keys es key (by simpa [objKeys] using h)]
  | null => rfl
  | bool b => cases b <;> rfl
  | num n => simp [matchedTagsNewTags, truthy, objGet, spreadEntries]
  | str v => simp [matchedTagsNewTags, truthy, objGet, spreadEntries]
  | arr vs => rfl

theorem matchedTagsStages_empty_spec (stages : List (String × JVal))
    (key : String) :
    objGet ((lookupEntry (matchedTagsStages key [] stages) "tags").getD .null)
      key = none ∧
    ((objKeys ((lookupEntry stages "tags").getD .null)).filter
        (fun c => c != key) = [] →
      lookupEntry (matchedTagsStages key [] stages) "tags" = none) := by
  simp only [matchedTagsStages]
  by_cases he :
      (matchedTagsNewTags key [] ((lookupEntry stages "tags").getD .null)).isEmpty =
        true
  · rw [if_pos he]
    refine ⟨?_, fun _ => lookup_delEntry_self _ _⟩
    rw [lookup_delEntry_self]
    rfl
  · rw [if_neg he]
    rw [lookup_setEntry_self]
    refine ⟨?_, ?_⟩
    · simpa [objGet] using matchedTagsNewTags_empty_lookup _ key
    · intro h
      have hnil := matchedTagsNewTags_empty_last _ key h
      exact absurd (by simp [hnil]) he

/-- C5: a `matchedTags` write of an empty set removes the tag category
key from the `tags` sub-object of the resulting filters object, and when
that category was the last remaining one the parent `tags` key itself is
absent from the filters object. -/
theorem matchedTags_empty_write (key : String) (modal : Bool) (s : Store) :
    ∃ o, filtersOf modal (matchedTagsSet key modal s []) = some o ∧
      objGet ((objGet o "tags").getD .null) key = none ∧
      ((objKeys (((filtersOf modal s).bind (fun fo => objGet fo "tags")).getD
          .null)).filter (fun c => c != key) = [] →
        objGet o "tags" = none) := by
  have hspec := matchedTagsStages_empty_spec (spreadEntries (filtersOf modal s)) key
  rw [lookup_spreadEntries] at hspec
  cases modal with
  | true =>
    exact ⟨.obj (matchedTagsStages key [] (spreadEntries (filtersOf true s))),
      rfl, hspec.1, hspec.2⟩
  | false =>
    refine ⟨.obj (matchedTagsStages key [] (spreadEntries (filtersOf false s))),
      ?_, hspec.1, hspec.2⟩
    have h : filtersOf false (matchedTagsSet key false s []) =
        filtersGet (filtersSet s
          (some (.obj (matchedTagsStages key []
            (spreadEntries (filtersOf false s)))))) := rfl
    rw [h, filtersGet_filtersSet]
    rfl

/-- C5 (witness): the empty-set write instantiated at a concrete store
whose only tag category is the written one, so that the `tags` key itself
is removed. -/
theorem matchedTags_empty_write_witness :
    (objKeys (((filtersOf false storeTags).bind
        (fun fo => objGet fo "tags")).getD .null)).filter
        (fun c => c != "k1") = [] ∧
    (∃ o, filtersOf false (matchedTagsSet "k1" false storeTags []) = some o ∧
      objGet ((objGet o "tags").getD .null) "k1" = none ∧
      ((objKeys (((filtersOf false storeTags).bind
          (fun fo => objGet fo "tags")).getD .null)).filter
          (fun c => c != "k1") = [] →
        objGet o "tags" = none)) :=
  ⟨rfl, matchedTags_empty_write "k1" false storeTags⟩

/-- C6 (counterexample): at the default store the state description is
`\x7b\x7d`, so the non-modal filters object is absent; the `matchedTags`
read then dereferences `.tags` on `undefined` and fails (`none`) instead
of returning the empty set, so the read is not total when the filters
object itself is absent. -/
theorem matchedTags_read_absent_filters_cex :
    filtersGet initStore = none ∧
    matchedTagsGet "ground_truth" false initStore = none :=
  ⟨rfl, rfl⟩

/-- C6 (amended): whenever the consulted filters value exists and is not
`null` — always the case in the modal context, and in the non-modal
context whenever the state description has a non-null `filters` key — the
`matchedTags` read is total and returns the set of tag values recorded
under the category, or the empty set when the category (or the `tags`
key) is absent; when the non-modal filters object is absent the read
fails instead. -/
theorem matchedTags_read_total (key : String) (modal : Bool) (s : Store)
    (o : JVal) (h : filtersOf modal s = some o) (hn : o ≠ JVal.null) :
    matchedTagsGet key modal s = some (matchedTagsSpec o key) := by
  unfold matchedTagsGet
  rw [h]
  cases o with
  | null => exact absurd rfl hn
  | bool b => rfl
  | num n => rfl
  | str v => rfl
  | arr vs => rfl
  | obj es =>
    simp only [matchedTagsSpec, objGet]
    cases htags : lookupEntry es "tags" with
    | none => rfl
    | some t =>
      cases t with
      | obj ts =>
        cases hentry : lookupEntry ts key with
        | none => simp [truthy, objGet, hentry]
        | some v =>
          simp only [Option.getD_some, truthy, Bool.true_and, objGet, hentry]
          cases v with
          | null => rfl
          | bool b => cases b <;> rfl
          | num n =>
            by_cases hz : (n != 0) = true
            · simp [truthy, hz]
            · simp only [truthy, if_neg hz]
              have : n = 0 := by simpa using hz
              subst this
              rfl
          | str v =>
            by_cases hz : (v != "") = true
            · simp [truthy, hz]
            · simp only [truthy, if_neg hz]
              have : v = "" := by simpa using hz
              subst this
              rfl
          | arr vs => rfl
          | obj os => rfl
      | null => rfl
      | bool b => cases b <;> rfl
      | num n => simp [truthy, objGet, ite_eq_right_iff, Bool.and_comm]
      | str v => simp [truthy, objGet, ite_eq_right_iff, Bool.and_comm]
      | arr vs => simp [truthy, objGet]

/-- C6 (witness): the amended read contract at a concrete store whose
non-modal filters object is present. -/
theorem matchedTags_read_total_witness :
    filtersOf false storeTags =
      some (.obj [("tags", .obj [("k1", .arr [.str "t"])])]) ∧
    matchedTagsGet "k1" false storeTags =
      some (matchedTagsSpec (.obj [("tags", .obj [("k1", .arr [.str "t"])])])
        "k1") :=
  ⟨rfl,
    matchedTags_read_total "k1" false storeTags
      (.obj [("tags", .obj [("k1", .arr [.str "t"])])]) rfl
      (fun hh => JVal.noConfusion hh)⟩

theorem filter_keys_eq_self (l : List (String × JVal)) (k : String)
    (h : k ∉ l.map Prod.fst) : l.filter (fun e => e.1 != k) = l := by
  have hd := delEntry_eq_self l k h
  simpa [delEntry] using hd

/-- C7: on a `state_update` event whose decoded `data.state` splits into
`colorscale`, `config`, `view` and residual entries `R`, the handler
extracts `colorscale` and `config` verbatim and builds a `state` object
equal to the case-converted residual entries with the `view` field set to
the original, un-converted view value. -/
theorem state_update_splits_payload (X C W : JVal)
    (R : List (String × JVal)) (s : Option LocalState)
    (h1 : "colorscale" ∉ R.map Prod.fst) (h2 : "config" ∉ R.map Prod.fst) :
    onMessage false
      { event := "state_update",
        data := .obj [("state",
          .obj (("colorscale", X) :: ("config", C) :: ("view", W) :: R))] } s =
      some { colorscale := some X, config := some C,
             state := .obj (("view", W) :: toCamelCaseEntries R) } := by
  have hdata :
      objDelete (objDelete
        (JVal.obj (("colorscale", X) :: ("config", C) :: ("view", W) :: R))
        "colorscale") "config" = .obj (("view", W) :: R) := by
    simp [objDelete, delEntry, List.filter_cons, filter_keys_eq_self R _ h1,
      filter_keys_eq_self R _ h2]
  have hmsg :
      onMessage false
        { event := "state_update",
          data := .obj [("state",
            .obj (("colorscale", X) :: ("config", C) :: ("view", W) :: R))] }
        s =
      some (handleStateUpdate
        (.obj (("colorscale", X) :: ("config", C) :: ("view", W) :: R))) := rfl
  rw [hmsg]
  unfold handleStateUpdate
  rw [hdata]
  have hview : objGet (JVal.obj (("view", W) :: R)) "view" = some W := by
    simp [objGet, lookupEntry]
  have hcc : objGet
      (JVal.obj (("colorscale", X) :: ("config", C) :: ("view", W) :: R))
      "colorscale" = some X := by
    simp [objGet, lookupEntry]
  have hcf : objGet
      (JVal.obj (("colorscale", X) :: ("config", C) :: ("view", W) :: R))
      "config" = some C := by
    simp [objGet, lookupEntry]
  have hcamel : toCamelCase (JVal.obj (("view", W) :: R)) =
      .obj (("view", toCamelCase W) :: toCamelCaseEntries R) := by
    have hk : camelKey "view" = "view" := rfl
    simp [toCamelCase, toCamelCaseEntries, hk]
  have hset : objSet (JVal.obj (("view", toCamelCase W) :: toCamelCaseEntries R))
      "view" W = .obj (("view", W) :: toCamelCaseEntries R) := by
    simp [objSet, setEntry]
  simp only [hview, hcc, hcf, hcamel, Option.getD_some, hset]

/-- C7 (witness): the split at a concrete payload with one residual
snake_case field. -/
theorem state_update_splits_payload_witness :
    ("colorscale" ∉ ["other_field"] ∧ "config" ∉ ["other_field"]) ∧
    onMessage false
      { event := "state_update",
        data := .obj [("state",
          .obj [("colorscale", .str "X"), ("config", .obj [("a", .num 1)]),
            ("view", .arr [.num 0]), ("other_field", .str "Y")])] } none =
      some { colorscale := some (.str "X"), config := some (.obj [("a", .num 1)]),
             state := .obj [("view", .arr [.num 0]), ("otherField", .str "Y")] } :=
  ⟨⟨by decide, by decide⟩,
    state_update_splits_payload (.str "X") (.obj [("a", .num 1)]) (.arr [.num 0])
      [("other_field", .str "Y")] none (by decide) (by decide)⟩

theorem runMessages_aborted (post : List (Bool × ESMessage))
    (s' : Option LocalState) (h : ∀ m ∈ post, m.1 = true) :
    runMessages s' post = s' := by
  revert h
  induction post generalizing s' with
  | nil => intro _; rfl
  | cons m rest ih =>
    intro h
    obtain ⟨b, msg⟩ := m
    have hb : b = true := h (b, msg) (List.mem_cons_self _ _)
    subst hb
    exact ih s' (fun m hm => h m (List.mem_cons_of_mem _ hm))

/-- C8: once the abort signal associated with the subscription has been
triggered, every subsequently delivered message is discarded by the
per-message abort check, so no further local-state mutation occurs: the
state after any aborted suffix of deliveries equals the state before
it. -/
theorem post_abort_messages_discarded (pre post : List (Bool × ESMessage))
    (s : Option LocalState) (h : ∀ m ∈ post, m.1 = true) :
    runMessages s (pre ++ post) = runMessages s pre := by
  unfold runMessages
  rw [List.foldl_append]
  exact runMessages_aborted post _ h

/-- C8 (witness): a delivery trace with one message before the abort and
one after; the post-abort message leaves the state unchanged. -/
theorem post_abort_messages_discarded_witness :
    (∀ m ∈ [((true : Bool), msgB)], m.1 = true) ∧
    runMessages none ([((false : Bool), msgA)] ++ [((true : Bool), msgB)]) =
      runMessages none [((false : Bool), msgA)] :=
  ⟨by decide,
    post_abort_messages_discarded [((false : Bool), msgA)]
      [((true : Bool), msgB)] none (by decide)⟩

/-- C9 (counterexample): the light palette defines the semantic token
`background.input` that the dark palette does not define, so the two
schemes do not define the same token set. -/
theorem theme_token_set_cex :
    ["background", "input"] ∈ tokenPaths lightPalette ∧
    ["background", "input"] ∉ tokenPaths darkPalette := by decide

/-- C9 (amended): every token of the dark palette is also a token of the
light palette, and the tokens the light palette has beyond the dark one
are exactly `background.input` and `text.buttonHighlight`. -/
theorem theme_token_sets_agree_except :
    (tokenPaths darkPalette).all
        (fun p => (tokenPaths lightPalette).contains p) = true ∧
    (tokenPaths lightPalette).filter
        (fun p => !((tokenPaths darkPalette).contains p)) =
      [["background", "input"], ["text", "buttonHighlight"]] := by decide
